import Mathlib

/-!
Verification of the cell-name-and-marker-validator core (tokenizer, resolver,
conflict detection) against its natural-language specification.

Strings are modelled as `List Char` (`Str`).  Python functions from
`src/common.py`, `src/validate.py`, `src/normalize.py`, `src/batch_validate.py`
and `src/server.py` are translated definition by definition; Python regular
expressions are modelled with a small backtracking matcher whose constructs
cover exactly the patterns used by the source (character classes, literals,
case-insensitive literals, sequence, ordered alternation, greedy star/plus of
a character class, and the end anchor `$`).  Case folding is modelled on the
ASCII range, which covers every input appearing in the repository's data and
tests.
-/

/-- Strings are lists of characters. -/
abbrev Str := List Char

/-- Convert a Lean string literal to the `Str` representation. -/
def chars (s : String) : Str := s.data

/-- Python slice `gate[0:-n]` for `n ≥ 0`.  For `n = 0` Python yields the
empty string `gate[0:0]` (not the whole string), which is the source of the
empty-suffix quirk in `split_gate`. -/
def pySlice (gate : Str) (n : Nat) : Str :=
  if n = 0 then [] else gate.take (gate.length - n)

/-- Stable insertion of a symbol into a list sorted by length descending:
`s` goes before the first element whose length is `≤` its own, matching the
stability of Python's `sorted(..., key=len, reverse=True)`. -/
def insertByLen (s : Str) : List Str → List Str
  | [] => [s]
  | t :: ts => if t.length ≤ s.length then s :: t :: ts else t :: insertByLen s ts

/-- Python `sorted(list(symbols), key=len, reverse=True)`. -/
def sortSymbols : List Str → List Str
  | [] => []
  | s :: rest => insertByLen s (sortSymbols rest)

/-- The `for symbol in ...: if gate.endswith(symbol)` loop of `split_gate`:
the first symbol in the list that is a suffix of the gate. -/
def findSuffix (gate : Str) : List Str → Option Str
  | [] => none
  | s :: rest => if s.isSuffixOf gate then some s else findSuffix gate rest

/-- `split_gate` from `src/common.py`: try the suffix symbols longest first
and split the gate at the first (hence longest) symbol that is a suffix of
it; with no match, return the gate with an empty suffix. -/
def split_gate (gate : Str) (symbols : List Str) : Str × Str :=
  match findSuffix gate (sortSymbols symbols) with
  | some s => (pySlice gate s.length, s)
  | none => (gate, [])

/-- `get_clean_marker` from `src/validate.py`: endswith tests for the four
hard-coded suffixes `"++"`, `"+-"`, `"+"`, `"-"`, longest first, returning
the level name. -/
def get_clean_marker (name : Str) : Str × Option Str :=
  if ['+', '+'].isSuffixOf name then (name.take (name.length - 2), some (chars "high"))
  else if ['+', '-'].isSuffixOf name then (name.take (name.length - 2), some (chars "low"))
  else if ['+'].isSuffixOf name then (name.take (name.length - 1), some (chars "positive"))
  else if ['-'].isSuffixOf name then (name.take (name.length - 1), some (chars "negative"))
  else (name, none)

/-- The symbol set hard-coded into `get_clean_marker`, in testing order. -/
def cleanSymbols : List Str := [['+', '+'], ['+', '-'], ['+'], ['-']]

/-- Read a `split_gate` result as a `get_clean_marker` result by naming the
four known suffix symbols. -/
def cleanFromSplit (p : Str × Str) : Str × Option Str :=
  (p.1,
    if p.2 = ['+', '+'] then some (chars "high")
    else if p.2 = ['+', '-'] then some (chars "low")
    else if p.2 = ['+'] then some (chars "positive")
    else if p.2 = ['-'] then some (chars "negative")
    else none)

lemma mem_insertByLen {s t : Str} {l : List Str} :
    t ∈ insertByLen s l ↔ t = s ∨ t ∈ l := by
  induction l with
  | nil => simp [insertByLen]
  | cons a as ih =>
      by_cases h : a.length ≤ s.length
      · simp [insertByLen, h]
      · simp [insertByLen, h, ih, or_assoc, or_left_comm]

lemma mem_sortSymbols {t : Str} {l : List Str} :
    t ∈ sortSymbols l ↔ t ∈ l := by
  induction l with
  | nil => simp [sortSymbols]
  | cons a as ih => simp [sortSymbols, mem_insertByLen, ih]

lemma pairwise_insertByLen {s : Str} {l : List Str}
    (h : l.Pairwise (fun a b => b.length ≤ a.length)) :
    (insertByLen s l).Pairwise (fun a b => b.length ≤ a.length) := by
  induction l with
  | nil => simp [insertByLen]
  | cons a as ih =>
      rcases List.pairwise_cons.mp h with ⟨ha, has⟩
      by_cases hl : a.length ≤ s.length
      · simp only [insertByLen, if_pos hl]
        refine List.pairwise_cons.mpr ⟨?_, h⟩
        intro t ht
        rcases List.mem_cons.mp ht with rfl | ht
        · exact hl
        · exact (ha t ht).trans hl
      · simp only [insertByLen, if_neg hl]
        refine List.pairwise_cons.mpr ⟨?_, ih has⟩
        intro t ht
        rcases mem_insertByLen.mp ht with ht | ht
        · subst ht; exact Nat.le_of_not_le hl
        · exact ha t ht

lemma pairwise_sortSymbols (l : List Str) :
    (sortSymbols l).Pairwise (fun a b => b.length ≤ a.length) := by
  induction l with
  | nil => simp [sortSymbols]
  | cons a as ih => exact pairwise_insertByLen ih

lemma findSuffix_some {gate s : Str} {l : List Str}
    (h : findSuffix gate l = some s) :
    s.isSuffixOf gate = true ∧ s ∈ l := by
  induction l with
  | nil => simp [findSuffix] at h
  | cons a as ih =>
      by_cases hm : a.isSuffixOf gate
      · simp only [findSuffix, if_pos hm] at h
        cases h
        exact ⟨hm, List.mem_cons_self _ _⟩
      · simp only [findSuffix, if_neg hm] at h
        rcases ih h with ⟨h1, h2⟩
        exact ⟨h1, List.mem_cons_of_mem _ h2⟩

/-- On a list sorted by length descending, `findSuffix` picks a match of
maximal length, and a `none` result means nothing matches. -/
lemma findSuffix_longest (gate : Str) (l : List Str)
    (hl : l.Pairwise (fun a b => b.length ≤ a.length)) :
    (∀ s, findSuffix gate l = some s →
        ∀ t ∈ l, t.isSuffixOf gate = true → t.length ≤ s.length) ∧
    (findSuffix gate l = none → ∀ t ∈ l, ¬ t.isSuffixOf gate = true) := by
  induction l with
  | nil => simp [findSuffix]
  | cons a as ih =>
      rcases List.pairwise_cons.mp hl with ⟨ha, has⟩
      rcases ih has with ⟨ihs, ihn⟩
      by_cases hm : a.isSuffixOf gate
      · refine ⟨?_, ?_⟩
        · intro s hs t ht hts
          simp only [findSuffix, if_pos hm] at hs
          cases hs
          rcases List.mem_cons.mp ht with rfl | ht
          · exact le_rfl
          · exact ha t ht
        · intro hn
          simp only [findSuffix, if_pos hm] at hn
          cases hn
      · refine ⟨?_, ?_⟩
        · intro s hs t ht hts
          simp only [findSuffix, if_neg hm] at hs
          rcases List.mem_cons.mp ht with rfl | ht
          · exact absurd hts hm
          · exact ihs s hs t ht hts
        · intro hn t ht hts
          simp only [findSuffix, if_neg hm] at hn
          rcases List.mem_cons.mp ht with rfl | ht
          · exact hm hts
          · exact ihn hn t ht hts

/-- The core correctness fact about `split_gate` when all symbols are
non-empty: the pieces reassemble to the gate, and the suffix is a longest
matching symbol (or empty when nothing matches). -/
lemma split_gate_spec (gate : Str) (symbols : List Str)
    (hne : ∀ s ∈ symbols, s ≠ []) :
    (split_gate gate symbols).1 ++ (split_gate gate symbols).2 = gate ∧
    ((split_gate gate symbols).2 = [] →
        ∀ s ∈ symbols, ¬ s.isSuffixOf gate = true) ∧
    ((split_gate gate symbols).2 ≠ [] →
        (split_gate gate symbols).2 ∈ symbols ∧
        (split_gate gate symbols).2.isSuffixOf gate = true ∧
        ∀ s ∈ symbols, s.isSuffixOf gate → s.length ≤ (split_gate gate symbols).2.length) := by
  rcases hfind : findSuffix gate (sortSymbols symbols) with _ | s
  · have hsplit : split_gate gate symbols = (gate, []) := by
      simp [split_gate, hfind]
    refine ⟨by simp [hsplit], ?_, by simp [hsplit]⟩
    intro _ t ht
    exact (findSuffix_longest gate _ (pairwise_sortSymbols symbols)).2 hfind t
      (mem_sortSymbols.mpr ht)
  · rcases findSuffix_some hfind with ⟨hsuf, hmem'⟩
    have hmem : s ∈ symbols := mem_sortSymbols.mp hmem'
    have hsne : s ≠ [] := hne s hmem
    rcases List.isSuffixOf_iff_suffix.mp hsuf with ⟨pre, hpre⟩
    have hsplit : split_gate gate symbols = (pySlice gate s.length, s) := by
      simp [split_gate, hfind]
    have hslice : pySlice gate s.length = pre := by
      have hpos : s.length ≠ 0 := by
        intro h0; exact hsne (List.length_eq_zero.mp h0)
      have hl : gate.length - s.length = pre.length := by
        rw [← hpre]; simp
      rw [pySlice, if_neg hpos, hl, ← hpre, List.take_left]
    refine ⟨?_, ?_, ?_⟩
    · rw [hsplit, hslice]; exact hpre
    · intro habs; rw [hsplit] at habs; exact absurd habs hsne
    · intro _
      rw [hsplit]
      refine ⟨hmem, hsuf, ?_⟩
      intro t ht hts
      exact (findSuffix_longest gate _ (pairwise_sortSymbols symbols)).1 s hfind t
        (mem_sortSymbols.mpr ht) hts

/-- `get_clean_marker` agrees with `split_gate` over its hard-coded symbol
set, so it inherits the longest-match behaviour. -/
lemma get_clean_marker_eq_split (name : Str) :
    get_clean_marker name = cleanFromSplit (split_gate name cleanSymbols) := by
  have hsort : sortSymbols cleanSymbols = cleanSymbols := by decide
  by_cases h1 : ['+', '+'].isSuffixOf name
  · have hf : findSuffix name cleanSymbols = some ['+', '+'] := by
      simp only [cleanSymbols, findSuffix, if_pos h1]
    simp [split_gate, hsort, hf, get_clean_marker, h1, cleanFromSplit, pySlice]
  · by_cases h2 : ['+', '-'].isSuffixOf name
    · have hf : findSuffix name cleanSymbols = some ['+', '-'] := by
        simp only [cleanSymbols, findSuffix, if_neg h1, if_pos h2]
      simp [split_gate, hsort, hf, get_clean_marker, h1, h2, cleanFromSplit, pySlice]
    · by_cases h3 : ['+'].isSuffixOf name
      · have hf : findSuffix name cleanSymbols = some ['+'] := by
          simp only [cleanSymbols, findSuffix, if_neg h1, if_neg h2, if_pos h3]
        simp [split_gate, hsort, hf, get_clean_marker, h1, h2, h3, cleanFromSplit, pySlice]
      · by_cases h4 : ['-'].isSuffixOf name
        · have hf : findSuffix name cleanSymbols = some ['-'] := by
            simp only [cleanSymbols, findSuffix, if_neg h1, if_neg h2, if_neg h3, if_pos h4]
          simp [split_gate, hsort, hf, get_clean_marker, h1, h2, h3, h4, cleanFromSplit,
            pySlice]
        · have hf : findSuffix name cleanSymbols = none := by
            simp only [cleanSymbols, findSuffix, if_neg h1, if_neg h2, if_neg h3, if_neg h4]
          simp [split_gate, hsort, hf, get_clean_marker, h1, h2, h3, h4, cleanFromSplit]

/-- C1 counterexample: with the empty string as a suffix symbol, Python's
`gate[0:-0]` slice is empty, so `split_gate('abc', [''])` returns
`('', '')` instead of the whole gate paired with the empty suffix: the label
and suffix no longer reassemble to the gate. -/
theorem c1_split_gate_empty_symbol_counterexample :
    split_gate (chars "abc") [[]] = ([], []) ∧
    ([] : Str) ++ ([] : Str) ≠ chars "abc" := by
  constructor
  · rfl
  · simp [chars]

/-- C1 (amended: all suffix symbols non-empty): `split_gate` returns the
longest matching symbol as suffix together with the gate minus that suffix,
never a shorter symbol when a longer one matches, and the whole gate with an
empty suffix when nothing matches; `get_clean_marker` realises the same
longest-first discipline over its hard-coded symbols `++`, `+-`, `+`, `-`. -/
theorem c1_suffix_stripping_longest_match (gate : Str) (symbols : List Str)
    (hne : ∀ s ∈ symbols, s ≠ []) :
    (split_gate gate symbols).1 ++ (split_gate gate symbols).2 = gate ∧
    ((split_gate gate symbols).2 = [] →
        ∀ s ∈ symbols, ¬ s.isSuffixOf gate = true) ∧
    ((split_gate gate symbols).2 ≠ [] →
        (split_gate gate symbols).2 ∈ symbols ∧
        (split_gate gate symbols).2.isSuffixOf gate = true ∧
        ∀ s ∈ symbols, s.isSuffixOf gate → s.length ≤ (split_gate gate symbols).2.length) ∧
    get_clean_marker gate = cleanFromSplit (split_gate gate cleanSymbols) := by
  rcases split_gate_spec gate symbols hne with ⟨h1, h2, h3⟩
  exact ⟨h1, h2, h3, get_clean_marker_eq_split gate⟩

/-- Witness for C1 at a concrete input: gate `CD3++` against symbols
`+`, `++` is split as `CD3` / `++`, never as `CD3+` / `+`. -/
theorem c1_suffix_stripping_longest_match_witness :
    (∀ s ∈ [chars "+", chars "++"], s ≠ []) ∧
    (split_gate (chars "CD3++") [chars "+", chars "++"]).2 = chars "++" ∧
    ((split_gate (chars "CD3++") [chars "+", chars "++"]).1 ++
      (split_gate (chars "CD3++") [chars "+", chars "++"]).2 = chars "CD3++") := by
  have h := c1_suffix_stripping_longest_match (chars "CD3++") [chars "+", chars "++"]
    (by decide)
  exact ⟨by decide, by decide, h.1⟩

/-- C10: for non-empty suffix symbols, `split_gate` splits the gate into a
label and a suffix that concatenate back to the gate, the suffix being empty
or one of the given symbols. -/
theorem c10_split_gate_reassembles (gate : Str) (symbols : List Str)
    (hne : ∀ s ∈ symbols, s ≠ []) :
    (split_gate gate symbols).1 ++ (split_gate gate symbols).2 = gate ∧
    ((split_gate gate symbols).2 = [] ∨ (split_gate gate symbols).2 ∈ symbols) := by
  rcases split_gate_spec gate symbols hne with ⟨h1, _, h3⟩
  refine ⟨h1, ?_⟩
  by_cases h : (split_gate gate symbols).2 = []
  · exact Or.inl h
  · exact Or.inr (h3 h).1

/-- Witness for C10 at a concrete input: `CD27hi` against suffix symbols
`++`, `+` (no match) returns the whole gate and an empty suffix. -/
theorem c10_split_gate_reassembles_witness :
    (∀ s ∈ [chars "++", chars "+"], s ≠ []) ∧
    ((split_gate (chars "CD27hi") [chars "++", chars "+"]).1 ++
      (split_gate (chars "CD27hi") [chars "++", chars "+"]).2 = chars "CD27hi") := by
  have h := c10_split_gate_reassembles (chars "CD27hi") [chars "++", chars "+"]
    (by decide)
  exact ⟨by decide, h.1⟩

/-! ### A small backtracking regular-expression matcher

Covers exactly the constructs used by the patterns in `src/common.py`:
single-character classes, literal strings (case sensitive and insensitive),
sequencing, ordered alternation, greedy `*`/`+` over a character class, and
the end anchor `$`.  `mtch` returns the possible remainders of the input in
backtracking priority order, so the head of the list is the match Python's
engine commits to at that position. -/

/-- Python `\s` (ASCII whitespace as used by the repository's data). -/
def isPySpace (c : Char) : Bool :=
  c = ' ' || c = '\t' || c = '\n' || c = '\r' || c = '\x0B' || c = '\x0C'

/-- Python `\w` (modelled on the ASCII range plus underscore). -/
def isWordChar (c : Char) : Bool := c.isAlphanum || c = '_'

/-- Python `\d`. -/
def isDigitChar (c : Char) : Bool := c.isDigit

/-- Python `.` (anything but a newline). -/
def notNL (c : Char) : Bool := c != '\n'

/-- Regular-expression syntax. -/
inductive RE where
  | eps
  | cls (p : Char → Bool)
  | lit (s : Str)
  | litCI (s : Str)
  | seq (a b : RE)
  | alt (a b : RE)
  | starC (p : Char → Bool)
  | plusC (p : Char → Bool)
  | eol

/-- Case-insensitive prefix test (ASCII case folding). -/
def ciPrefix : Str → Str → Bool
  | [], _ => true
  | _ :: _, [] => false
  | a :: as, b :: bs => (a.toLower == b.toLower) && ciPrefix as bs

/-- Remainders of a greedy `p*`: longest consumption first. -/
def starRems (p : Char → Bool) : Str → List Str
  | [] => [[]]
  | c :: rest => if p c then starRems p rest ++ [c :: rest] else [c :: rest]

/-- All remainders of matching `re` at the start of `l`, in backtracking
priority order. -/
def mtch : RE → Str → List Str
  | .eps, l => [l]
  | .cls _, [] => []
  | .cls p, c :: r => if p c then [r] else []
  | .lit s, l => if s.isPrefixOf l then [l.drop s.length] else []
  | .litCI s, l => if ciPrefix s l then [l.drop s.length] else []
  | .seq a b, l => (mtch a l).flatMap (fun r => mtch b r)
  | .alt a b, l => mtch a l ++ mtch b l
  | .starC p, l => starRems p l
  | .plusC _, [] => []
  | .plusC p, c :: r => if p c then starRems p r else []
  | .eol, l => if l.isEmpty || l == ['\n'] then [l] else []

/-- Number of characters consumed by the preferred match of `re` at the
start of `l`, if any. -/
def firstConsumed (re : RE) (l : Str) : Option Nat :=
  (mtch re l).head?.map (fun r => l.length - r.length)

/-- `re.sub` (all non-overlapping matches, leftmost first), fuelled by the
input length; every pattern fed to it consumes at least one character per
match, so the fuel never runs out. -/
def reSubFuel (re : RE) (f : Str → Str) : Nat → Str → Str
  | 0, l => l
  | _ + 1, [] => []
  | n + 1, c :: rest =>
      match firstConsumed re (c :: rest) with
      | some (k + 1) => f ((c :: rest).take (k + 1)) ++ reSubFuel re f n ((c :: rest).drop (k + 1))
      | _ => c :: reSubFuel re f n rest

/-- Python `re.sub(pattern, f(match), s)`. -/
def reSub (re : RE) (f : Str → Str) (l : Str) : Str := reSubFuel re f l.length l

/-- `re.split`, fuelled by the input length; `acc` is the current token in
reverse. -/
def reSplitFuel (re : RE) : Nat → Str → Str → List Str
  | 0, acc, l => [acc.reverse ++ l]
  | _ + 1, acc, [] => [acc.reverse]
  | n + 1, acc, c :: rest =>
      match firstConsumed re (c :: rest) with
      | some (k + 1) => acc.reverse :: reSplitFuel re n [] ((c :: rest).drop (k + 1))
      | _ => reSplitFuel re n (c :: acc) rest

/-- Python `re.split(pattern, s)` for patterns without capture groups. -/
def reSplit (re : RE) (l : Str) : List Str := reSplitFuel re l.length [] l

/-- `re.findall`, fuelled by the input length. -/
def reFindFuel (re : RE) : Nat → Str → List Str
  | 0, _ => []
  | _ + 1, [] => []
  | n + 1, c :: rest =>
      match firstConsumed re (c :: rest) with
      | some (k + 1) => (c :: rest).take (k + 1) :: reFindFuel re n ((c :: rest).drop (k + 1))
      | _ => reFindFuel re n rest

/-- Python `re.findall(pattern, s)` for patterns without capture groups. -/
def reFindall (re : RE) (l : Str) : List Str := reFindFuel re l.length l

/-- `r?` (greedy option). -/
def reOpt (r : RE) : RE := .alt r .eps

/-! ### The tokenizer (`tokenize` in `src/common.py`) -/

/-- Python's substring containment `needle in hay`. -/
def containsSub (needle : Str) : Str → Bool
  | [] => needle.isEmpty
  | c :: rest => needle.isPrefixOf (c :: rest) || containsSub needle rest

/-- The inner helper `any_in_projname`. -/
def anyIn (projname : Str) (kwds : List Str) : Bool :=
  kwds.any (fun k => containsSub k projname)

/-- `': ' in reported`. -/
def hasColonSpace (r : Str) : Bool := containsSub [':', ' '] r

/-- The pattern `^.*:\s+`.  `.*` is greedy, so the preferred match runs to
the last reachable colon-plus-whitespace, not the first. -/
def colonRE : RE := .seq (.starC notNL) (.seq (.lit [':']) (.plusC isPySpace))

/-- `re.sub(r'^.*:\s+', r'', reported)` guarded by `': ' in reported`; the
`^` anchor means only a match at position 0 is possible. -/
def stripColon (r : Str) : Str :=
  if hasColonSpace r then
    match firstConsumed colonRE r with
    | some (k + 1) => r.drop (k + 1)
    | _ => r
  else r

/-- `[\-\+]`. -/
def pmCls (c : Char) : Bool := c = '-' || c = '+'

/-- LaJolla / ARA06 / Center for Human Immunology / Wistar:
`re.findall(r'\w+[\-\+]*', reported)`. -/
def laJollaGates (r : Str) : List Str :=
  reFindall (.seq (.plusC isWordChar) (.starC pmCls)) r

/-- IPIRC / Watson / Ltest / Seattle Biomed: `re.split(r'\/', reported)`. -/
def slashGates (r : Str) : List Str := reSplit (.lit ['/']) r

/-- Emory: `re.split(r',\s+', reported)`. -/
def emoryGates (r : Str) : List Str :=
  reSplit (.seq (.lit [',']) (.plusC isPySpace)) r

/-- `\s+AND\s+`. -/
def andUpRE : RE := .seq (.plusC isPySpace) (.seq (.lit (chars "AND")) (.plusC isPySpace))

/-- `\s+and\s+`. -/
def andLoRE : RE := .seq (.plusC isPySpace) (.seq (.lit (chars "and")) (.plusC isPySpace))

/-- VRC: `re.split(r'\s+AND\s+', reported)`. -/
def vrcGates (r : Str) : List Str := reSplit andUpRE r

/-- Ertl: `re.split(r'\s+and\s+', reported)`. -/
def ertlGates (r : Str) : List Str := reSplit andLoRE r

/-- The replacement `\1/\2` where group 1 is the first character of the
match: insert a slash after it. -/
def insSlash1 (m : Str) : Str := m.take 1 ++ '/' :: m.drop 1

/-- Stanford: `re.sub(r'([\-\+])(CD\d+|CX\w+\d+|CCR\d)', r'\1/\2', ...)`
then `re.split(r'\/|,\s+', ...)`. -/
def stanfordGates (r : Str) : List Str :=
  reSplit (.alt (.lit ['/']) (.seq (.lit [',']) (.plusC isPySpace)))
    (reSub
      (.seq (.cls pmCls)
        (.alt (.seq (.lit (chars "CD")) (.plusC isDigitChar))
          (.alt (.seq (.lit (chars "CX")) (.seq (.plusC isWordChar) (.plusC isDigitChar)))
            (.seq (.lit (chars "CCR")) (.cls isDigitChar)))))
      insSlash1 r)

/-- Baylor: collapse duplicate commas, set off `granulocyte`, insert slashes
before `CD<digit>`, then `re.split(r'\/|,\s*', ...)`. -/
def baylorGates (r : Str) : List Str :=
  let r1 := reSub (.seq (.lit [',']) (.plusC (fun c => c = ','))) (fun _ => [',']) r
  let r2 := reSub (.lit (chars " granulocyte")) (fun _ => chars ", granulocyte") r1
  let r3 := reSub (.seq (.cls pmCls) (.seq (.lit (chars "CD")) (.cls isDigitChar))) insSlash1 r2
  reSplit (.alt (.lit ['/']) (.seq (.lit [',']) (.starC isPySpace))) r3

/-- Rochester: `re.split(r';+\s*|\/', reported)`. -/
def rochesterGates (r : Str) : List Str :=
  reSplit (.alt (.seq (.plusC (fun c => c = ';')) (.starC isPySpace)) (.lit ['/'])) r

/-- Mayo: `re.sub(r' CD(\d)', r' /CD\1', ...)` then split on slashes. -/
def mayoGates (r : Str) : List Str :=
  reSplit (.lit ['/'])
    (reSub (.seq (.lit (chars " CD")) (.cls isDigitChar)) insSlash1 r)

/-- Improving Kidney: `re.sub(r'([\-\+])CD(\d)', r'\1/CD\2', ...)` then
split on slashes. -/
def kidneyGates (r : Str) : List Str :=
  reSplit (.lit ['/'])
    (reSub (.seq (.cls pmCls) (.seq (.lit (chars "CD")) (.cls isDigitChar))) insSlash1 r)

/-- New York Influenza: space after `high`, insert slashes before marker
patterns, then `re.split(r'\/|,', ...)`. -/
def nyGates (r : Str) : List Str :=
  let r1 := reSub (.lit (chars "high")) (fun _ => chars "high ") r
  let r2 := reSub
    (.seq (.cls (fun c => c = '-' || c = '+' || c = ' '))
      (.alt (.seq (.lit (chars "CD")) (.plusC isDigitChar))
        (.alt (.seq (.lit (chars "CXCR")) (.cls isDigitChar))
          (.alt (.seq (.lit (chars "BCL")) (.cls isDigitChar))
            (.alt (.seq (.lit (chars "IF")) (.plusC isWordChar))
              (.alt (.seq (.lit (chars "PD")) (.plusC isDigitChar))
                (.alt (.seq (.lit (chars "IL")) (.plusC isDigitChar))
                  (.lit (chars "TNFa")))))))))
    insSlash1 r1
  reSplit (.alt (.lit ['/']) (.lit [','])) r2

/-- Modeling Viral: `re.split(r'\s+AND\s+|_AND_|\s+\+\s+', reported)`. -/
def modelingGates (r : Str) : List Str :=
  reSplit (.alt andUpRE (.alt (.lit (chars "_AND_"))
    (.seq (.plusC isPySpace) (.seq (.lit ['+']) (.plusC isPySpace))))) r

/-- Immunobiology of Aging: `re.sub(r'([\-\+])(CD\d+|Ig\w+)', r'\1/\2', ...)`
then split on slashes. -/
def agingGates (r : Str) : List Str :=
  reSplit (.lit ['/'])
    (reSub
      (.seq (.cls pmCls)
        (.alt (.seq (.lit (chars "CD")) (.plusC isDigitChar))
          (.seq (.lit (chars "Ig")) (.plusC isWordChar))))
      insSlash1 r)

/-- Flow Cytometry Analysis:
`re.sub(r'(\+|\-)(CD\d+|Ig\w+|IL\d+|IF\w+|TNF\w+|Per\w+)', r'\1/\2', ...)`
then split on slashes. -/
def flowGates (r : Str) : List Str :=
  reSplit (.lit ['/'])
    (reSub
      (.seq (.cls (fun c => c = '+' || c = '-'))
        (.alt (.seq (.lit (chars "CD")) (.plusC isDigitChar))
          (.alt (.seq (.lit (chars "Ig")) (.plusC isWordChar))
            (.alt (.seq (.lit (chars "IL")) (.plusC isDigitChar))
              (.alt (.seq (.lit (chars "IF")) (.plusC isWordChar))
                (.alt (.seq (.lit (chars "TNF")) (.plusC isWordChar))
                  (.seq (.lit (chars "Per")) (.plusC isWordChar))))))))
      insSlash1 r)

/-- ITN019AD: drop `"(AND )R<number>..."` tails, turn `AND` into a space,
then split on whitespace. -/
def itnGates (r : Str) : List Str :=
  let r1 := reSub
    (.seq (reOpt (.seq (.plusC isPySpace) (.lit (chars "AND"))))
      (.seq (.plusC isPySpace)
        (.seq (.lit ['R']) (.seq (.plusC isDigitChar) (.seq (.starC notNL) .eol)))))
    (fun _ => []) r
  let r2 := reSub andUpRE (fun _ => [' ']) r1
  reSplit (.plusC isPySpace) r2

/-- Default dialect: `re.split(r'\/|,\s*|\s+AND\s+|\s+and\s+', reported)`. -/
def defaultGates (r : Str) : List Str :=
  reSplit (.alt (.lit ['/']) (.alt (.seq (.lit [',']) (.starC isPySpace))
    (.alt andUpRE andLoRE))) r

/-- Association-list lookup modelling a Python dict built in insertion
order (keys are unique in the source data, so first match is the value). -/
def lookupA {α : Type} (m : List (Str × α)) (k : Str) : Option α :=
  (m.find? (fun kv => kv.1 = k)).map (fun kv => kv.2)

/-- Python `str.strip()`. -/
def pyStrip (g : Str) : Str :=
  ((g.dropWhile isPySpace).reverse.dropWhile isPySpace).reverse

/-- The pattern `\s*<synonym>$` compiled with `re.IGNORECASE`. -/
def synRe (syn : Str) : RE := .seq (.starC isPySpace) (.seq (.litCI syn) .eol)

/-- The suffix-synonym rewriting loop of `tokenize`: for each synonym in
table order, if the gate case-insensitively ends with it, substitute the
canonical symbol.  The Python loop ends its body with `continue`, not
`break`, so scanning goes on over the already-rewritten gate. -/
def synLoop (ssymbs ssyns : List (Str × Str)) (g : Str) : Str :=
  ssyns.foldl (fun g kv =>
    if (kv.1.map Char.toLower).isSuffixOf (g.map Char.toLower) then
      reSub (synRe kv.1) (fun _ => (lookupA ssymbs kv.2).getD []) g
    else g) g

/-- Per-gate normalisation inside `tokenize`: strip, fix the `ý` hyphen
artifact, rewrite suffix synonyms, and replace spaces with underscores. -/
def processGate (ssymbs ssyns : List (Str × Str)) (g : Str) : Str :=
  let g1 := pyStrip g
  let g2 := reSub (.lit ['ý']) (fun _ => ['-']) g1
  let g3 := synLoop ssymbs ssyns g2
  g3.map (fun c => if c = ' ' then '_' else c)

/-- `tokenize` from `src/common.py`: strip a leading free-text label up to a
colon, dispatch on the project name through the ordered if/elif dialect
ladder, then normalise each raw gate and drop empty ones. -/
def tokenize (projname : Str) (suffixsymbs suffixsyns : List (Str × Str))
    (reported : Str) : List Str :=
  let rep := stripColon reported
  let gates :=
    if anyIn projname [chars "LaJolla", chars "ARA06",
        chars "Center for Human Immunology", chars "Wistar"] then laJollaGates rep
    else if anyIn projname [chars "IPIRC", chars "Watson", chars "Ltest",
        chars "Seattle Biomed"] then slashGates rep
    else if containsSub (chars "Emory") projname then emoryGates rep
    else if containsSub (chars "VRC") projname then vrcGates rep
    else if containsSub (chars "Ertl") projname then ertlGates rep
    else if containsSub (chars "Stanford") projname then stanfordGates rep
    else if containsSub (chars "Baylor") projname then baylorGates rep
    else if containsSub (chars "Rochester") projname then rochesterGates rep
    else if containsSub (chars "Mayo") projname then mayoGates rep
    else if containsSub (chars "Improving Kidney") projname then kidneyGates rep
    else if containsSub (chars "New York Influenza") projname then nyGates rep
    else if containsSub (chars "Modeling Viral") projname then modelingGates rep
    else if containsSub (chars "Immunobiology of Aging") projname then agingGates rep
    else if containsSub (chars "Flow Cytometry Analysis") projname then flowGates rep
    else if containsSub (chars "ITN019AD") projname then itnGates rep
    else defaultGates rep
  (gates.map (processGate suffixsymbs suffixsyns)).filter (fun g => !g.isEmpty)

/-- The dialect ladder as an ordered list of (project predicate, gate
extraction) rules, in the order the if/elif chain tests them. -/
def dialectRules : List ((Str → Bool) × (Str → List Str)) :=
  [ (fun p => anyIn p [chars "LaJolla", chars "ARA06",
      chars "Center for Human Immunology", chars "Wistar"], laJollaGates),
    (fun p => anyIn p [chars "IPIRC", chars "Watson", chars "Ltest",
      chars "Seattle Biomed"], slashGates),
    (fun p => containsSub (chars "Emory") p, emoryGates),
    (fun p => containsSub (chars "VRC") p, vrcGates),
    (fun p => containsSub (chars "Ertl") p, ertlGates),
    (fun p => containsSub (chars "Stanford") p, stanfordGates),
    (fun p => containsSub (chars "Baylor") p, baylorGates),
    (fun p => containsSub (chars "Rochester") p, rochesterGates),
    (fun p => containsSub (chars "Mayo") p, mayoGates),
    (fun p => containsSub (chars "Improving Kidney") p, kidneyGates),
    (fun p => containsSub (chars "New York Influenza") p, nyGates),
    (fun p => containsSub (chars "Modeling Viral") p, modelingGates),
    (fun p => containsSub (chars "Immunobiology of Aging") p, agingGates),
    (fun p => containsSub (chars "Flow Cytometry Analysis") p, flowGates),
    (fun p => containsSub (chars "ITN019AD") p, itnGates) ]

/-- First-match-wins evaluation of the dialect ladder, with the default
dialect as the terminal rule. -/
def applyDialect (p : Str) (r : Str) : List Str :=
  match dialectRules.find? (fun rule => rule.1 p) with
  | some rule => rule.2 r
  | none => defaultGates r

/-- C3: evaluation of `tokenize` at a two-colon input.  The code's comment
says everything up to the *first* colon is ignored, but the pattern
`^.*:\s+` is greedy, so the model (like the Python) discards everything up
to and including the *last* colon-plus-whitespace: only `CD3+` survives,
while the claimed behaviour would retain `Lymph:_CD3+`. -/
theorem c3_colon_strip_greedy_failing_input :
    tokenize (chars "Standard") [] [] (chars "Viable: Lymph: CD3+") = [chars "CD3+"] ∧
    [chars "CD3+"] ≠ [chars "Lymph:_CD3+"] := by
  constructor
  · decide
  · decide

/-- C4: evaluation of the tokenizer at input `CDhi` with synonym table
`[hi → high, ++ → negative]` and symbols `[high → ++, negative → -]`.
Because the synonym loop ends with `continue` rather than `break`, the
first rewrite `CDhi → CD++` is followed by a second rewrite `CD++ → CD-`
by the later synonym `++`; first-match-terminates would have produced
`CD++`. -/
theorem c4_synonym_loop_rewrites_twice_failing_input :
    tokenize (chars "Some Project")
        [(chars "high", chars "++"), (chars "negative", chars "-")]
        [(chars "hi", chars "high"), (chars "++", chars "negative")]
        (chars "CDhi") = [chars "CD-"] ∧
    [chars "CD-"] ≠ [chars "CD++"] := by
  constructor
  · decide
  · decide

/-- C7: dialect selection in `tokenize` is order-sensitive and
first-match-wins: the if/elif ladder computes exactly the first rule of the
canonical ordered rule list whose project predicate matches, with the
default splitting rule (slash, comma plus optional whitespace, or
`AND`/`and` surrounded by whitespace) when none matches. -/
theorem c7_dialect_first_match_wins (projname : Str) (ssymbs ssyns : List (Str × Str))
    (reported : Str) :
    tokenize projname ssymbs ssyns reported =
      ((applyDialect projname (stripColon reported)).map
        (processGate ssymbs ssyns)).filter (fun g => !g.isEmpty) := by
  unfold tokenize applyDialect dialectRules
  cases h1 : anyIn projname [chars "LaJolla", chars "ARA06",
      chars "Center for Human Immunology", chars "Wistar"]
  case true => simp [h1, List.find?_cons]
  case false =>
  cases h2 : anyIn projname [chars "IPIRC", chars "Watson", chars "Ltest",
      chars "Seattle Biomed"]
  case true => simp [h1, h2, List.find?_cons]
  case false =>
  cases h3 : containsSub (chars "Emory") projname
  case true => simp [h1, h2, h3, List.find?_cons]
  case false =>
  cases h4 : containsSub (chars "VRC") projname
  case true => simp [h1, h2, h3, h4, List.find?_cons]
  case false =>
  cases h5 : containsSub (chars "Ertl") projname
  case true => simp [h1, h2, h3, h4, h5, List.find?_cons]
  case false =>
  cases h6 : containsSub (chars "Stanford") projname
  case true => simp [h1, h2, h3, h4, h5, h6, List.find?_cons]
  case false =>
  cases h7 : containsSub (chars "Baylor") projname
  case true => simp [h1, h2, h3, h4, h5, h6, h7, List.find?_cons]
  case false =>
  cases h8 : containsSub (chars "Rochester") projname
  case true => simp [h1, h2, h3, h4, h5, h6, h7, h8, List.find?_cons]
  case false =>
  cases h9 : containsSub (chars "Mayo") projname
  case true => simp [h1, h2, h3, h4, h5, h6, h7, h8, h9, List.find?_cons]
  case false =>
  cases h10 : containsSub (chars "Improving Kidney") projname
  case true => simp [h1, h2, h3, h4, h5, h6, h7, h8, h9, h10, List.find?_cons]
  case false =>
  cases h11 : containsSub (chars "New York Influenza") projname
  case true => simp [h1, h2, h3, h4, h5, h6, h7, h8, h9, h10, h11, List.find?_cons]
  case false =>
  cases h12 : containsSub (chars "Modeling Viral") projname
  case true => simp [h1, h2, h3, h4, h5, h6, h7, h8, h9, h10, h11, h12, List.find?_cons]
  case false =>
  cases h13 : containsSub (chars "Immunobiology of Aging") projname
  case true => simp [h1, h2, h3, h4, h5, h6, h7, h8, h9, h10, h11, h12, h13, List.find?_cons]
  case false =>
  cases h14 : containsSub (chars "Flow Cytometry Analysis") projname
  case true => simp [h1, h2, h3, h4, h5, h6, h7, h8, h9, h10, h11, h12, h13, h14,
    List.find?_cons]
  case false =>
  cases h15 : containsSub (chars "ITN019AD") projname
  case true => simp [h1, h2, h3, h4, h5, h6, h7, h8, h9, h10, h11, h12, h13, h14, h15,
    List.find?_cons]
  case false => simp [h1, h2, h3, h4, h5, h6, h7, h8, h9, h10, h11, h12, h13, h14, h15,
    List.find?_cons]

/-! ### The resolver (`normalize` in `src/normalize.py`, `preferize` in
`src/batch_validate.py`) -/

/-- One row of the special-gates table: `Ontology ID`, `Synonyms`,
`toxic synonym`. -/
structure SpecialGate where
  ontid : Str
  synonyms : Str
  toxic : Str

/-- Python `s.split(', ')`. -/
def splitCommaSpace (s : Str) : List Str := reSplit (.lit [',', ' ']) s

/-- Python `s.casefold()` (ASCII case folding). -/
def cfold (s : Str) : Str := s.map Char.toLower

/-- The special-gates comprehension of `normalize`: all `(label, ontology
id)` pairs whose label, synonyms, or toxic synonym case-insensitively match
the stripped gate label (skipped entirely for an empty label). -/
def specialEntries (special_gates : List (Str × SpecialGate)) (label : Str) :
    List (Str × Str) :=
  (special_gates.filter (fun kv =>
      !label.isEmpty &&
        (cfold label == cfold kv.1 ||
         (splitCommaSpace kv.2.synonyms).any (fun v => cfold label == cfold v) ||
         (splitCommaSpace kv.2.toxic).any (fun v => cfold label == cfold v)))).map
    (fun kv => (kv.1, kv.2.ontid))

/-- The long-form ontology namespace replaced by `normalize`. -/
def oboPR : Str := chars "http://purl.obolibrary.org/obo/PR_"

/-- Python `str.replace` (all non-overlapping occurrences, left to right),
fuelled by the input length; the pattern used is never empty. -/
def replaceAllFuel (pat rep : Str) : Nat → Str → Str
  | 0, l => l
  | _ + 1, [] => []
  | n + 1, c :: rest =>
      if pat.isPrefixOf (c :: rest) && !pat.isEmpty then
        rep ++ replaceAllFuel pat rep n ((c :: rest).drop pat.length)
      else c :: replaceAllFuel pat rep n rest

/-- Python `l.replace(pat, rep)`. -/
def replaceAll (pat rep l : Str) : Str := replaceAllFuel pat rep l.length l

/-- The per-gate body of `normalize`: split off the suffix, search the
special gates, resolve the ontology id with the `!` sentinel fallback,
compute the preferred label, and compact the long-form id. -/
def normalize_gate (gate_mappings : List (Str × Str))
    (special_gates : List (Str × SpecialGate)) (preferred : List (Str × Str))
    (symbols : List Str) (gate : Str) : Str × Str :=
  let ls := split_gate gate symbols
  let label := ls.1
  let suffixsymb := ls.2
  let specials := specialEntries special_gates label
  let fallback := match specials with
    | e :: _ => e.2
    | [] => '!' :: label
  let ontology_id := match lookupA gate_mappings label with
    | some v => if v.isEmpty then fallback else v
    | none => fallback
  let preferred_label := match lookupA preferred ontology_id with
    | some v => v
    | none => match specials with
      | e :: _ => e.1
      | [] => '!' :: label
  (preferred_label ++ suffixsymb,
   replaceAll oboPR (chars "PR:") ontology_id ++ suffixsymb)

namespace Source

/-- `normalize` from `src/normalize.py`: the per-gate resolution applied in
order, returning the preferred-label gates and the ontologized gates.
(The name `normalize` is taken by Mathlib at the root level, hence the
namespace.) -/
def normalize (gates : List Str) (gate_mappings : List (Str × Str))
    (special_gates : List (Str × SpecialGate)) (preferred : List (Str × Str))
    (symbols : List Str) : List Str × List Str :=
  match gates with
  | [] => ([], [])
  | g :: gs =>
      let r := normalize_gate gate_mappings special_gates preferred symbols g
      let rest := normalize gs gate_mappings special_gates preferred symbols
      (r.1 :: rest.1, r.2 :: rest.2)

end Source

/-- `preferize` from `src/batch_validate.py`: a textual duplicate of the
preferred-label half of `normalize`, producing only the preferred-label
gates. -/
def preferize (gates : List Str) (gate_mappings : List (Str × Str))
    (special_gates : List (Str × SpecialGate)) (preferred : List (Str × Str))
    (symbols : List Str) : List Str :=
  match gates with
  | [] => []
  | gate :: gs =>
      let ls := split_gate gate symbols
      let label := ls.1
      let suffixsymb := ls.2
      let specials := (special_gates.filter (fun kv =>
          !label.isEmpty &&
            (cfold label == cfold kv.1 ||
             (splitCommaSpace kv.2.synonyms).any (fun v => cfold label == cfold v) ||
             (splitCommaSpace kv.2.toxic).any (fun v => cfold label == cfold v)))).map
        (fun kv => (kv.1, kv.2.ontid))
      let fallback := match specials with
        | e :: _ => e.2
        | [] => '!' :: label
      let ontology_id := match lookupA gate_mappings label with
        | some v => if v.isEmpty then fallback else v
        | none => fallback
      let preferred_label := match lookupA preferred ontology_id with
        | some v => v
        | none => match specials with
          | e :: _ => e.1
          | [] => '!' :: label
      (preferred_label ++ suffixsymb) ::
        preferize gs gate_mappings special_gates preferred symbols

lemma normalize_fst_eq_map (gates : List Str) (gm : List (Str × Str))
    (sg : List (Str × SpecialGate)) (pref : List (Str × Str)) (symbols : List Str) :
    (Source.normalize gates gm sg pref symbols).1 =
      gates.map (fun g => (normalize_gate gm sg pref symbols g).1) := by
  induction gates with
  | nil => rfl
  | cons g gs ih => simp [Source.normalize, ih]

lemma normalize_snd_eq_map (gates : List Str) (gm : List (Str × Str))
    (sg : List (Str × SpecialGate)) (pref : List (Str × Str)) (symbols : List Str) :
    (Source.normalize gates gm sg pref symbols).2 =
      gates.map (fun g => (normalize_gate gm sg pref symbols g).2) := by
  induction gates with
  | nil => rfl
  | cons g gs ih => simp [Source.normalize, ih]

/-- C9: `preferize` returns exactly the preferred-label component of
`normalize` on the same inputs — the duplicated resolver pipelines are
extensionally equal. -/
theorem c9_preferize_eq_normalize_fst (gates : List Str) (gm : List (Str × Str))
    (sg : List (Str × SpecialGate)) (pref : List (Str × Str)) (symbols : List Str) :
    preferize gates gm sg pref symbols = (Source.normalize gates gm sg pref symbols).1 := by
  induction gates with
  | nil => rfl
  | cons g gs ih => simp [preferize, Source.normalize, normalize_gate, specialEntries, ih]

/-- C5: `Mikeyhigh` tokenizes to `Mikey++` (suffix synonym `high` becomes
`++`), and resolving `Mikey++` against a special-gates table where
`Michael` has ontology id `PR:034` and toxic synonym `mikey` yields
identifier `PR:034++` and preferred label `Michael++`. -/
theorem c5_toxic_synonym_mikey :
    tokenize (chars "Some Project") [(chars "high", chars "++")]
        [(chars "high", chars "high")] (chars "Mikeyhigh") = [chars "Mikey++"] ∧
    Source.normalize [chars "Mikey++"] []
        [(chars "Michael", ⟨chars "PR:034", [], chars "mikey"⟩)] [] [chars "++"]
      = ([chars "Michael++"], [chars "PR:034++"]) := by
  constructor
  · decide
  · decide

lemma replaceAllFuel_not_contains (pat rep : Str) (n : Nat) (l : Str)
    (h : containsSub pat l = false) : replaceAllFuel pat rep n l = l := by
  induction n generalizing l with
  | zero => rfl
  | succ n ih =>
      cases l with
      | nil => rfl
      | cons c rest =>
          simp only [containsSub, Bool.or_eq_false_iff] at h
          rcases h with ⟨hp, hc⟩
          simp [replaceAllFuel, hp, ih rest hc]

lemma replaceAll_not_contains (pat rep l : Str) (h : containsSub pat l = false) :
    replaceAll pat rep l = l :=
  replaceAllFuel_not_contains pat rep l.length l h

/-- C2 counterexample: the claim fails as universally stated.  If the
preferred-label table happens to contain the key `!viable`, the resolver
returns that entry's value rather than the sentinel; and a label containing
the long-form namespace is rewritten inside the sentinel identifier. -/
theorem c2_sentinel_counterexample :
    (Source.normalize [chars "viable"] [] [] [(chars "!viable", chars "X")] []).1
      = [chars "X"] ∧
    chars "X" ≠ '!' :: chars "viable" ∧
    (Source.normalize [chars "http://purl.obolibrary.org/obo/PR_9"] [] [] [] []).2
      = [chars "!PR:9"] ∧
    chars "!PR:9" ≠ '!' :: chars "http://purl.obolibrary.org/obo/PR_9" := by
  refine ⟨by decide, by decide, by decide, by decide⟩

/-- C2 (amended): `normalize` returns one preferred-label gate and one
ontologized gate for every token and never fails; when a token's label has
no gate mapping and matches no special gate, both outputs are the literal
label prefixed with `!` followed by the token's suffix symbol — provided
the preferred-label table has no entry for the sentinel itself and the
label does not contain the long-form `PR` namespace. -/
theorem c2_missing_label_resolves_to_sentinel :
    (∀ (gates : List Str) (gm : List (Str × Str)) (sg : List (Str × SpecialGate))
        (pref : List (Str × Str)) (symbols : List Str),
      (Source.normalize gates gm sg pref symbols).1.length = gates.length ∧
      (Source.normalize gates gm sg pref symbols).2.length = gates.length) ∧
    (∀ (gm : List (Str × Str)) (sg : List (Str × SpecialGate))
        (pref : List (Str × Str)) (symbols : List Str) (gate : Str),
      lookupA gm (split_gate gate symbols).1 = none →
      specialEntries sg (split_gate gate symbols).1 = [] →
      lookupA pref ('!' :: (split_gate gate symbols).1) = none →
      containsSub oboPR ('!' :: (split_gate gate symbols).1) = false →
      normalize_gate gm sg pref symbols gate =
        ('!' :: (split_gate gate symbols).1 ++ (split_gate gate symbols).2,
         '!' :: (split_gate gate symbols).1 ++ (split_gate gate symbols).2)) := by
  constructor
  · intro gates gm sg pref symbols
    rw [normalize_fst_eq_map, normalize_snd_eq_map]
    simp
  · intro gm sg pref symbols gate hgm hsp hpref hobo
    have hrep := replaceAll_not_contains oboPR (chars "PR:")
      ('!' :: (split_gate gate symbols).1) hobo
    simp [normalize_gate, hgm, hsp, hpref, hrep]

/-- Witness for C2 at a concrete input: the unmapped label `viable` with
empty tables resolves to `!viable` in both outputs. -/
theorem c2_missing_label_resolves_to_sentinel_witness :
    normalize_gate [] [] [] [] (chars "viable") =
      ('!' :: chars "viable", '!' :: chars "viable") := by
  have h := c2_missing_label_resolves_to_sentinel.2 [] [] [] [] (chars "viable")
    (by decide) (by decide) (by decide) (by decide)
  exact h.trans (by decide)

lemma split_gate_snd_mem (gate : Str) (symbols : List Str) :
    (split_gate gate symbols).2 = [] ∨ (split_gate gate symbols).2 ∈ symbols := by
  rcases hfind : findSuffix gate (sortSymbols symbols) with _ | s
  · left
    simp [split_gate, hfind]
  · right
    have hm := mem_sortSymbols.mp (findSuffix_some hfind).2
    simpa [split_gate, hfind] using hm

lemma replaceAll_ne_nil (pat rep l : Str) (hl : l ≠ []) (hrep : rep ≠ []) :
    replaceAll pat rep l ≠ [] := by
  cases l with
  | nil => exact absurd rfl hl
  | cons c rest =>
      rw [replaceAll]
      simp only [List.length_cons, replaceAllFuel]
      by_cases hp : (pat.isPrefixOf (c :: rest) && !pat.isEmpty) = true
      · simp [hp, hrep]
      · simp [hp]

lemma replaceAll_bang_cons (rep xs : Str) :
    replaceAll oboPR rep ('!' :: xs) = '!' :: replaceAllFuel oboPR rep xs.length xs := by
  have hp : (oboPR.isPrefixOf ('!' :: xs)) = false := by
    show (('h' == '!') && List.isPrefixOf (chars "ttp://purl.obolibrary.org/obo/PR_") xs) = false
    rw [show (('h' : Char) == '!') = false from rfl, Bool.false_and]
  rw [replaceAll]
  simp [List.length_cons, replaceAllFuel, hp]

lemma lookupA_mem {α : Type} {m : List (Str × α)} {k : Str} {v : α}
    (h : lookupA m k = some v) : v ∈ m.map (fun kv => kv.2) := by
  unfold lookupA at h
  rcases Option.map_eq_some'.mp h with ⟨kv, hfind, hv⟩
  exact hv ▸ List.mem_map.mpr ⟨kv, List.mem_of_find?_eq_some hfind, rfl⟩

lemma specialEntries_mem {sg : List (Str × SpecialGate)} {label : Str} {e : Str × Str}
    (h : e ∈ specialEntries sg label) : e.2 ∈ sg.map (fun kv => kv.2.ontid) := by
  unfold specialEntries at h
  rcases List.mem_map.mp h with ⟨kv, hkv, he⟩
  exact List.mem_map.mpr ⟨kv, (List.mem_filter.mp hkv).1, by rw [← he]⟩

lemma normalize_gate_snd_cases (gm : List (Str × Str)) (sg : List (Str × SpecialGate))
    (pref : List (Str × Str)) (symbols : List Str) (gate : Str) :
    (∃ v, lookupA gm (split_gate gate symbols).1 = some v ∧ v ≠ [] ∧
      (normalize_gate gm sg pref symbols gate).2 =
        replaceAll oboPR (chars "PR:") v ++ (split_gate gate symbols).2) ∨
    (∃ e es, specialEntries sg (split_gate gate symbols).1 = e :: es ∧
      (normalize_gate gm sg pref symbols gate).2 =
        replaceAll oboPR (chars "PR:") e.2 ++ (split_gate gate symbols).2) ∨
    ((normalize_gate gm sg pref symbols gate).2 =
      replaceAll oboPR (chars "PR:") ('!' :: (split_gate gate symbols).1) ++
        (split_gate gate symbols).2) := by
  rcases hlk : lookupA gm (split_gate gate symbols).1 with _ | v
  · rcases hsp : specialEntries sg (split_gate gate symbols).1 with _ | ⟨e, es⟩
    · exact Or.inr (Or.inr (by simp [normalize_gate, hlk, hsp]))
    · exact Or.inr (Or.inl ⟨e, es, rfl, by simp [normalize_gate, hlk, hsp]⟩)
  · cases hv : v.isEmpty
    case true =>
      rcases hsp : specialEntries sg (split_gate gate symbols).1 with _ | ⟨e, es⟩
      · exact Or.inr (Or.inr (by simp [normalize_gate, hlk, hv, hsp]))
      · exact Or.inr (Or.inl ⟨e, es, rfl, by simp [normalize_gate, hlk, hv, hsp]⟩)
    case false =>
      refine Or.inl ⟨v, rfl, ?_, by simp [normalize_gate, hlk, hv]⟩
      intro habs
      rw [habs] at hv
      cases hv

lemma normalize_gate_snd_spec (gm : List (Str × Str)) (sg : List (Str × SpecialGate))
    (pref : List (Str × Str)) (symbols : List Str) (gate : Str)
    (hsg : ∀ e ∈ sg, e.2.ontid ≠ []) :
    (normalize_gate gm sg pref symbols gate).2 ≠ [] ∧
    ((normalize_gate gm sg pref symbols gate).2.head? = some '!' ∨
      ∃ id, (id ∈ gm.map (fun kv => kv.2) ∨ id ∈ sg.map (fun kv => kv.2.ontid)) ∧ id ≠ [] ∧
        ∃ sfx, (sfx = [] ∨ sfx ∈ symbols) ∧
          (normalize_gate gm sg pref symbols gate).2 =
            replaceAll oboPR (chars "PR:") id ++ sfx) := by
  have hsfx := split_gate_snd_mem gate symbols
  rcases normalize_gate_snd_cases gm sg pref symbols gate with
    ⟨v, hlk, hne, h2⟩ | ⟨e, es, hsp, h2⟩ | h2
  · refine ⟨?_, Or.inr ⟨v, Or.inl (lookupA_mem hlk), hne,
      (split_gate gate symbols).2, hsfx, h2⟩⟩
    rw [h2]
    intro habs
    rcases List.append_eq_nil.mp habs with ⟨ha, _⟩
    exact replaceAll_ne_nil _ _ _ hne (by decide) ha
  · have he : e ∈ specialEntries sg (split_gate gate symbols).1 := by
      rw [hsp]; exact List.mem_cons_self _ _
    have hid : e.2 ∈ sg.map (fun kv => kv.2.ontid) := specialEntries_mem he
    have hne : e.2 ≠ [] := by
      rcases List.mem_map.mp hid with ⟨kv, hkv, hkve⟩
      exact hkve ▸ hsg kv hkv
    refine ⟨?_, Or.inr ⟨e.2, Or.inr hid, hne, (split_gate gate symbols).2, hsfx, h2⟩⟩
    rw [h2]
    intro habs
    rcases List.append_eq_nil.mp habs with ⟨ha, _⟩
    exact replaceAll_ne_nil _ _ _ hne (by decide) ha
  · rw [h2, replaceAll_bang_cons, List.cons_append]
    exact ⟨by simp, Or.inl (by simp)⟩

/-- C6 counterexample: a special-gates entry with an empty `Ontology ID`
makes `normalize` emit an empty identifier: `mike` matches the special
entry `Mike` whose ontology id is the empty string, and with an empty
suffix the resulting identifier is the empty string — neither a short-form
identifier nor `!`-prefixed. -/
theorem c6_empty_special_ontid_counterexample :
    (Source.normalize [chars "mike"] [] [(chars "Mike", ⟨[], [], []⟩)] [] []).2
      = [([] : Str)] := by
  decide

/-- C6 (amended: every special-gates entry carries a non-empty ontology
id): every identifier returned by `normalize` is non-empty, and it either
starts with `!` or is the compacted form of an identifier taken from the
gate-mapping or special-gates tables with the gate's suffix appended. -/
theorem c6_identifier_never_empty (gates : List Str) (gm : List (Str × Str))
    (sg : List (Str × SpecialGate)) (pref : List (Str × Str)) (symbols : List Str)
    (hsg : ∀ e ∈ sg, e.2.ontid ≠ []) :
    ∀ out ∈ (Source.normalize gates gm sg pref symbols).2,
      out ≠ [] ∧
      (out.head? = some '!' ∨
        ∃ id, (id ∈ gm.map (fun kv => kv.2) ∨ id ∈ sg.map (fun kv => kv.2.ontid)) ∧
          id ≠ [] ∧ ∃ sfx, (sfx = [] ∨ sfx ∈ symbols) ∧
            out = replaceAll oboPR (chars "PR:") id ++ sfx) := by
  intro out hout
  rw [normalize_snd_eq_map] at hout
  rcases List.mem_map.mp hout with ⟨g, _, rfl⟩
  exact normalize_gate_snd_spec gm sg pref symbols g hsg

/-- Witness for C6 at a concrete input: resolving `CD4` against the mapping
`CD4 → PR:016` produces the non-empty identifier `PR:016`. -/
theorem c6_identifier_never_empty_witness :
    ((∀ e ∈ ([] : List (Str × SpecialGate)), e.2.ontid ≠ []) ∧
      chars "PR:016" ∈
        (Source.normalize [chars "CD4"] [(chars "CD4", chars "PR:016")] [] [] []).2) ∧
    (chars "PR:016" ≠ [] ∧
      ((chars "PR:016").head? = some '!' ∨
        ∃ id, (id ∈ [(chars "CD4", chars "PR:016")].map (fun kv => kv.2) ∨
            id ∈ ([] : List (Str × SpecialGate)).map (fun kv => kv.2.ontid)) ∧
          id ≠ [] ∧ ∃ sfx, (sfx = [] ∨ sfx ∈ ([] : List Str)) ∧
            chars "PR:016" = replaceAll oboPR (chars "PR:") id ++ sfx)) :=
  ⟨⟨by decide, by decide⟩,
    c6_identifier_never_empty [chars "CD4"] [(chars "CD4", chars "PR:016")] [] [] []
      (by decide) (chars "PR:016") (by decide)⟩

/-! ### Conflict detection

`parse_gates_field` in `src/server.py` compares every processed gate
against every entry of `cell['results']` (the gates derived from the cell's
ontology definition plus the gates supplied in the cell's own description),
and the conflict loop in `main` of `src/normalize.py` compares every
cell-side gate against every gate of the reported definition.  The server
loop is modelled with the gate records it manipulates; `process_gate` and
the global lookup maps it reads are abstracted as a parameter. -/

/-- The fields of a processed gate dictionary that the conflict loop
touches: ontology kind, level IRI, level name, and the conflict flag. -/
structure SGate where
  kind : Option Str
  level : Option Str
  levelName : Option Str
  conflict : Bool

/-- A conflict record: a copy of the gate (whose conflict flag was just
set) plus the cell side's level and level name. -/
structure ConflictRec where
  kind : Option Str
  level : Option Str
  levelName : Option Str
  conflictFlag : Bool
  cellLevel : Option Str
  cellLevelName : Option Str

/-- The comparison in `parse_gates_field`:
`gate['kind'] == cell_result['kind'] and gate['level'] != cell_result['level']`. -/
def gateConf (g cr : SGate) : Bool := g.kind == cr.kind && g.level != cr.level

/-- The inner loop of `parse_gates_field` for one gate: walk the cell
results, set both conflict flags on a match, record the conflict, and keep
going.  Returns the updated gate, the updated cell results, and the
conflict records in order. -/
def pgfInner (g : SGate) : List SGate → SGate × List SGate × List ConflictRec
  | [] => (g, [], [])
  | cr :: rest =>
      if gateConf g cr then
        let g1 : SGate := { g with conflict := true }
        let cr1 : SGate := { cr with conflict := true }
        let c : ConflictRec :=
          { kind := g1.kind, level := g1.level, levelName := g1.levelName,
            conflictFlag := g1.conflict, cellLevel := cr1.level,
            cellLevelName := cr1.levelName }
        let r := pgfInner g1 rest
        (r.1, cr1 :: r.2.1, c :: r.2.2)
      else
        let r := pgfInner g rest
        (r.1, cr :: r.2.1, r.2.2)

/-- The output of `parse_gates_field`: the `gating` dictionary plus the
mutated `cell['results']`. -/
structure GatingResult where
  results : List SGate
  conflicts : List ConflictRec
  cellResults : List SGate
  hasErrors : Bool

/-- `parse_gates_field` from `src/server.py`, over an already-split gate
list, with `process_gate` (and the global maps it reads) abstracted as the
`process` parameter. -/
def parse_gates_field (process : Str → SGate × Bool) (gateStrings : List Str)
    (cell : List SGate) : GatingResult :=
  match gateStrings with
  | [] => { results := [], conflicts := [], cellResults := cell, hasErrors := false }
  | s :: ss =>
      let pg := process s
      let inner := pgfInner pg.1 cell
      let rest := parse_gates_field process ss inner.2.1
      { results := inner.1 :: rest.results,
        conflicts := inner.2.2 ++ rest.conflicts,
        cellResults := rest.cellResults,
        hasErrors := pg.2 || rest.hasErrors }

/-- Conflict marking applied to a cell result by one gate. -/
def updCell (g cr : SGate) : SGate :=
  if gateConf g cr then { cr with conflict := true } else cr

/-- The record emitted for a conflicting pair. -/
def confRec (g cr : SGate) : ConflictRec :=
  { kind := g.kind, level := g.level, levelName := g.levelName,
    conflictFlag := true, cellLevel := cr.level, cellLevelName := cr.levelName }

/-- One step of the conflict loop in `main` of `src/normalize.py`: split
both gates, compare the labels, and compare the two-valued polarities
(`level != '-'`), appending `population_gate + '/' + dlevel` and setting
the conflict type on a hit. -/
def mainConflictStep (symbols : List Str) (extra : List Str) (pg : Str)
    (st : List Str × Str) (dg : Str) : List Str × Str :=
  let p := split_gate pg symbols
  let d := split_gate dg symbols
  if p.1 == d.1 && ((p.2 != ['-']) != (d.2 != ['-'])) then
    (st.1 ++ [pg ++ '/' :: d.2],
     if extra.contains pg then chars "conflict with extra"
     else chars "conflict with CL definition")
  else st

/-- The conflict loop of `main` in `src/normalize.py`: all cell-side gates
against all reported-definition gates, in order. -/
def mainConflicts (symbols : List Str) (extra : List Str)
    (cellGates defGates : List Str) : List Str × Str :=
  cellGates.foldl (fun st pg => defGates.foldl (mainConflictStep symbols extra pg) st)
    ([], [])

lemma updCell_kind (g cr : SGate) : (updCell g cr).kind = cr.kind := by
  unfold updCell; split <;> rfl

lemma updCell_level (g cr : SGate) : (updCell g cr).level = cr.level := by
  unfold updCell; split <;> rfl

lemma updCell_levelName (g cr : SGate) : (updCell g cr).levelName = cr.levelName := by
  unfold updCell; split <;> rfl

lemma gateConf_updCell (g' g cr : SGate) : gateConf g' (updCell g cr) = gateConf g' cr := by
  unfold gateConf
  rw [updCell_kind, updCell_level]

lemma confRec_updCell (g' g cr : SGate) : confRec g' (updCell g cr) = confRec g' cr := by
  unfold confRec
  rw [updCell_level, updCell_levelName]

lemma gateConf_setConflict (g : SGate) (b : Bool) :
    gateConf { g with conflict := b } = gateConf g := rfl

lemma updCell_setConflict (g : SGate) (b : Bool) :
    updCell { g with conflict := b } = updCell g := rfl

lemma confRec_setConflict (g : SGate) (b : Bool) :
    confRec { g with conflict := b } = confRec g := rfl

lemma pgfInner_fst (g : SGate) (crs : List SGate) :
    (pgfInner g crs).1 = { g with conflict := g.conflict || crs.any (gateConf g) } := by
  induction crs generalizing g with
  | nil => simp [pgfInner]
  | cons cr rest ih =>
      by_cases h : gateConf g cr
      · simp [pgfInner, h, ih, gateConf_setConflict]
      · have hb : gateConf g cr = false := by simpa using h
        simp [pgfInner, hb, ih]

lemma pgfInner_cell (g : SGate) (crs : List SGate) :
    (pgfInner g crs).2.1 = crs.map (updCell g) := by
  induction crs generalizing g with
  | nil => simp [pgfInner]
  | cons cr rest ih =>
      by_cases h : gateConf g cr
      · simp [pgfInner, h, ih, updCell_setConflict, updCell]
      · have hb : gateConf g cr = false := by simpa using h
        simp [pgfInner, hb, ih, updCell]

lemma pgfInner_conf (g : SGate) (crs : List SGate) :
    (pgfInner g crs).2.2 = (crs.filter (gateConf g)).map (confRec g) := by
  induction crs generalizing g with
  | nil => simp [pgfInner]
  | cons cr rest ih =>
      by_cases h : gateConf g cr
      · simp [pgfInner, h, ih, gateConf_setConflict, confRec_setConflict, confRec]
      · have hb : gateConf g cr = false := by simpa using h
        simp [pgfInner, hb, ih]

lemma any_gateConf_updCell (g' g : SGate) (cell : List SGate) :
    (cell.map (updCell g)).any (gateConf g') = cell.any (gateConf g') := by
  induction cell with
  | nil => rfl
  | cons cr rest ih => simp [gateConf_updCell, ih]

lemma filter_conf_updCell (g' g : SGate) (cell : List SGate) :
    ((cell.map (updCell g)).filter (gateConf g')).map (confRec g')
      = (cell.filter (gateConf g')).map (confRec g') := by
  induction cell with
  | nil => rfl
  | cons cr rest ih =>
      by_cases h : gateConf g' cr
      · simp [gateConf_updCell, h, confRec_updCell, ih]
      · have hb : gateConf g' cr = false := by simpa using h
        simp [gateConf_updCell, hb, ih]

lemma map_upd_comp (g : SGate) (p : SGate → Bool) (cell : List SGate)
    (hp : ∀ cr, p (updCell g cr) = p cr) :
    (cell.map (updCell g)).map (fun cr => { cr with conflict := cr.conflict || p cr })
      = cell.map (fun cr =>
          { cr with conflict := cr.conflict || (gateConf g cr || p cr) }) := by
  induction cell with
  | nil => rfl
  | cons cr rest ih =>
      simp only [List.map_cons, ih, List.cons.injEq]
      refine ⟨?_, trivial⟩
      have hcr := hp cr
      by_cases h : gateConf g cr
      · simp [updCell, h] at hcr ⊢
      · have hb : gateConf g cr = false := by simpa using h
        simp [updCell, hb] at hcr ⊢

lemma pgf_conflicts (process : Str → SGate × Bool) (gateStrings : List Str)
    (cell : List SGate) :
    (parse_gates_field process gateStrings cell).conflicts =
      (gateStrings.map (fun s => (process s).1)).flatMap
        (fun g => (cell.filter (gateConf g)).map (confRec g)) := by
  induction gateStrings generalizing cell with
  | nil => rfl
  | cons s ss ih =>
      simp [parse_gates_field, pgfInner_conf, pgfInner_cell, ih, filter_conf_updCell]

lemma gateConf_comp_updCell (g' g : SGate) : gateConf g' ∘ updCell g = gateConf g' := by
  funext cr
  simp [Function.comp, gateConf_updCell]

lemma pgf_results (process : Str → SGate × Bool) (gateStrings : List Str)
    (cell : List SGate) :
    (parse_gates_field process gateStrings cell).results =
      (gateStrings.map (fun s => (process s).1)).map
        (fun g => { g with conflict := g.conflict || cell.any (gateConf g) }) := by
  induction gateStrings generalizing cell with
  | nil => rfl
  | cons s ss ih =>
      simp [parse_gates_field, pgfInner_fst, pgfInner_cell, ih, any_gateConf_updCell,
        gateConf_comp_updCell]

lemma pgf_cellResults (process : Str → SGate × Bool) (gateStrings : List Str)
    (cell : List SGate) :
    (parse_gates_field process gateStrings cell).cellResults =
      cell.map (fun cr => { cr with conflict := cr.conflict ||
        (gateStrings.map (fun s => (process s).1)).any (fun g => gateConf g cr) }) := by
  induction gateStrings generalizing cell with
  | nil =>
      simp only [parse_gates_field, List.map_nil, List.any_nil, Bool.or_false]
      exact (List.map_id cell).symm
  | cons s ss ih =>
      simp only [parse_gates_field, pgfInner_cell, ih, List.map_cons, List.any_cons]
      rw [map_upd_comp]
      intro cr
      simp [gateConf_updCell]

lemma foldl_mcStep_fst (symbols extra : List Str) (pg : Str) (defGates : List Str)
    (st : List Str × Str) :
    (defGates.foldl (mainConflictStep symbols extra pg) st).1 =
      st.1 ++ (defGates.filter (fun dg =>
        (split_gate pg symbols).1 == (split_gate dg symbols).1 &&
        (((split_gate pg symbols).2 != ['-']) != ((split_gate dg symbols).2 != ['-'])))).map
        (fun dg => pg ++ '/' :: (split_gate dg symbols).2) := by
  induction defGates generalizing st with
  | nil => simp
  | cons dg rest ih =>
      by_cases h : ((split_gate pg symbols).1 == (split_gate dg symbols).1 &&
        (((split_gate pg symbols).2 != ['-']) != ((split_gate dg symbols).2 != ['-']))) = true
      · simp [mainConflictStep, h, ih, List.filter_cons]
      · have hb : ((split_gate pg symbols).1 == (split_gate dg symbols).1 &&
          (((split_gate pg symbols).2 != ['-']) != ((split_gate dg symbols).2 != ['-'])))
            = false := by simpa using h
        simp [mainConflictStep, hb, ih, List.filter_cons]

lemma mainConflicts_fst (symbols extra cellGates defGates : List Str) :
    (mainConflicts symbols extra cellGates defGates).1 =
      cellGates.flatMap (fun pg =>
        (defGates.filter (fun dg =>
          (split_gate pg symbols).1 == (split_gate dg symbols).1 &&
          (((split_gate pg symbols).2 != ['-']) != ((split_gate dg symbols).2 != ['-'])))).map
        (fun dg => pg ++ '/' :: (split_gate dg symbols).2)) := by
  suffices h : ∀ st : List Str × Str,
      ((cellGates.foldl (fun st pg => defGates.foldl (mainConflictStep symbols extra pg) st)
        st).1 =
        st.1 ++ cellGates.flatMap (fun pg =>
          (defGates.filter (fun dg =>
            (split_gate pg symbols).1 == (split_gate dg symbols).1 &&
            (((split_gate pg symbols).2 != ['-']) !=
              ((split_gate dg symbols).2 != ['-'])))).map
          (fun dg => pg ++ '/' :: (split_gate dg symbols).2))) by
    simpa [mainConflicts] using h ([], [])
  induction cellGates with
  | nil => intro st; simp
  | cons pg rest ih =>
      intro st
      simp only [List.foldl_cons, ih, foldl_mcStep_fst, List.flatMap_cons, List.append_assoc]

/-- C8 counterexample: in the batch pipeline's conflict loop
(`main` in `src/normalize.py`), the gates `CD4++` and `CD4+` share the
marker `CD4` and carry different level identifiers (`++` vs `+`), yet no
conflict is emitted, because that loop compares the two-valued polarities
`level != '-'` rather than the level identifiers themselves. -/
theorem c8_polarity_not_level_counterexample :
    (mainConflicts [chars "++", chars "+~", chars "+-", chars "+", chars "-"] []
        [chars "CD4++"] [chars "CD4+"]).1 = [] ∧
    (split_gate (chars "CD4++")
        [chars "++", chars "+~", chars "+-", chars "+", chars "-"]).1 =
      (split_gate (chars "CD4+")
        [chars "++", chars "+~", chars "+-", chars "+", chars "-"]).1 ∧
    (split_gate (chars "CD4++")
        [chars "++", chars "+~", chars "+-", chars "+", chars "-"]).2 ≠
      (split_gate (chars "CD4+")
        [chars "++", chars "+~", chars "+-", chars "+", chars "-"]).2 := by
  refine ⟨by decide, by decide, by decide⟩

/-- C8 (amended): in `parse_gates_field` of `src/server.py` every processed
gate is compared against every cell-side gate; a conflict record carrying
the gate's level and the cell side's level is emitted exactly when the kind
identifiers are equal and the level identifiers differ, and both the gate
and the cell result have their conflict flags set exactly when such a
partner exists.  In the batch pipeline (`main` of `src/normalize.py`),
however, the pairwise comparison emits a conflict exactly when the labels
match and the two-valued polarities (`level != '-'`) differ — level
identifiers that differ within the same polarity do not conflict there. -/
theorem c8_conflict_detection_pairwise :
    (∀ (process : Str → SGate × Bool) (gateStrings : List Str) (cell : List SGate),
      (parse_gates_field process gateStrings cell).conflicts =
        (gateStrings.map (fun s => (process s).1)).flatMap
          (fun g => (cell.filter (gateConf g)).map (confRec g)) ∧
      (parse_gates_field process gateStrings cell).results =
        (gateStrings.map (fun s => (process s).1)).map
          (fun g => { g with conflict := g.conflict || cell.any (gateConf g) }) ∧
      (parse_gates_field process gateStrings cell).cellResults =
        cell.map (fun cr => { cr with conflict := cr.conflict ||
          (gateStrings.map (fun s => (process s).1)).any (fun g => gateConf g cr) })) ∧
    (∀ (symbols extra cellGates defGates : List Str),
      (mainConflicts symbols extra cellGates defGates).1 =
        cellGates.flatMap (fun pg =>
          (defGates.filter (fun dg =>
            (split_gate pg symbols).1 == (split_gate dg symbols).1 &&
            (((split_gate pg symbols).2 != ['-']) !=
              ((split_gate dg symbols).2 != ['-'])))).map
          (fun dg => pg ++ '/' :: (split_gate dg symbols).2))) := by
  constructor
  · intro process gateStrings cell
    exact ⟨pgf_conflicts process gateStrings cell, pgf_results process gateStrings cell,
      pgf_cellResults process gateStrings cell⟩
  · intro symbols extra cellGates defGates
    exact mainConflicts_fst symbols extra cellGates defGates
